import Mathlib

set_option linter.unusedVariables false

/- Shallow embedding of the developer-tools research pipeline of
   advanced-agent/src/workflow.py.  Python strings index by codepoint, so
   string-level operations are modelled over `List Char` (or over `String`,
   whose operations in Lean are also per-character). -/

/-- Python `str.strip()`: remove leading and trailing whitespace. -/
def pyStrip (s : List Char) : List Char :=
  (s.dropWhile Char.isWhitespace).rdropWhile Char.isWhitespace

/-- Python `pat in s`: substring containment. -/
def containsSub (s pat : List Char) : Bool := decide (pat <:+: s)

/-- Python `len(s.split())`: the number of maximal whitespace-free runs. -/
def wordCount (s : List Char) : Nat :=
  (s.foldl
    (fun st c =>
      if c.isWhitespace then (st.1, false)
      else if st.2 then st else (st.1 + 1, true))
    ((0 : Nat), false)).1

/-- Python `str.lower()` (per-character, adequate for the ASCII data here). -/
def pyLower (s : List Char) : List Char := s.map Char.toLower

/-- workflow.py line 73: `line.lower().startswith("here are")`. -/
def isPreambleLine (line : List Char) : Bool :=
  ("here are".toList).isPrefixOf (pyLower line)

/-- workflow.py line 75: `line[0].isdigit() and "." in line` (the line is
    non-empty at this point in the source). -/
def isNumberedListLine (line : List Char) : Bool :=
  match line with
  | [] => false
  | c :: _ => c.isDigit && containsSub line ['.']

/-- workflow.py line 77: the fixed stop-word list `summary_keywords`. -/
def summary_keywords : List (List Char) :=
  ["top", "mentioned", "alternatives", "tools", "summary", "article",
   "content"].map String.toList

/-- workflow.py line 78: `any(word in line.lower() for word in summary_keywords)`. -/
def hasSummaryKeyword (line : List Char) : Bool :=
  summary_keywords.any (fun w => containsSub (pyLower line) w)

/-- workflow.py line 79: `len(line.split()) > 5`. -/
def tooManyWords (line : List Char) : Bool := decide (5 < wordCount line)

/-- One iteration of the extraction filter loop (workflow.py lines 69-81):
    `none` when the line is discarded, `some` of the stripped line when it is
    kept (the source appends `line.strip()` and filters in this exact order:
    emptiness, preamble, numbered-list, stop-words, word count). -/
def processLineChars (l : List Char) : Option (List Char) :=
  if (pyStrip l).isEmpty then none
  else if isPreambleLine (pyStrip l) then none
  else if isNumberedListLine (pyStrip l) then none
  else if hasSummaryKeyword (pyStrip l) then none
  else if tooManyWords (pyStrip l) then none
  else some (pyStrip l)

/-- The lift of `processLineChars` to `String`. -/
def process_line (l : String) : Option String :=
  (processLineChars l.toList).map (fun cs => String.mk cs)

/-- The Classifier's line filter applied to a list of lines
    (the body of the `for line in ...` loop of `_extract_tools_step`). -/
def extract_tool_lines (lines : List String) : List String :=
  lines.filterMap process_line

/-- workflow.py line 69: `response.content.strip().split("\n")` followed by
    the per-line filter. -/
def extract_tool_names (content : String) : List String :=
  extract_tool_lines ((String.mk (pyStrip content.toList)).splitOn "\n")

/- ------------------------------------------------------------------ -/
/- Structured-Response Recovery Engine (`_analyze_company_content` and
   `_create_fallback_analysis`, workflow.py lines 90-225).              -/

/-- A JSON value, the result type of `json.loads`. -/
inductive JsonValue where
  | null : JsonValue
  | bool (b : Bool) : JsonValue
  | num (n : Int) : JsonValue
  | str (s : String) : JsonValue
  | arr (xs : List JsonValue) : JsonValue
  | obj (fields : List (String × JsonValue)) : JsonValue

/-- A Python dict of JSON values (insertion-ordered key/value pairs). -/
abbrev JsonData := List (String × JsonValue)

/-- Python `data.get(k)` / `k in data` lookup (first matching key). -/
def getField (d : JsonData) (k : String) : Option JsonValue :=
  (d.find? (fun p => p.1 = k)).map (fun p => p.2)

/-- Python `data[k] = v`: replace the value at an existing key, or append. -/
def setField (d : JsonData) (k : String) (v : JsonValue) : JsonData :=
  if (d.find? (fun p => p.1 = k)).isSome then
    d.map (fun p => if p.1 = k then (k, v) else p)
  else d ++ [(k, v)]

/-- The outcome of one call of the text-generation collaborator:
    it either raises or returns some (possibly empty / malformed) text. -/
inductive LLMResult where
  | raises : LLMResult
  | returns (s : String) : LLMResult

/-- workflow.py lines 139-151: coerce a string-typed boolean field
    ("true"/"false", case-insensitive) to a real boolean, else to `None`;
    non-string values are left untouched. -/
def coerceStrBool (d : JsonData) (k : String) : JsonData :=
  match getField d k with
  | some (JsonValue.str s) =>
    if s.toLower = "true" then setField d k (JsonValue.bool true)
    else if s.toLower = "false" then setField d k (JsonValue.bool false)
    else setField d k JsonValue.null
  | _ => d

/-- workflow.py lines 154-158: force a list field to be a list
    (missing or non-list values become the empty list). -/
def coerceListField (d : JsonData) (k : String) : JsonData :=
  match getField d k with
  | none => setField d k (JsonValue.arr [])
  | some (JsonValue.arr _) => d
  | some _ => setField d k (JsonValue.arr [])

/-- workflow.py lines 161-164: fill a missing field with a default value. -/
def fillMissingField (d : JsonData) (k : String) (v : JsonValue) : JsonData :=
  match getField d k with
  | none => setField d k v
  | some _ => d

/-- workflow.py lines 139-164: the post-parse normalisation of the decoded
    JSON dict, in source order. -/
def normalizeData (d : JsonData) : JsonData :=
  let d := coerceStrBool d "is_open_source"
  let d := coerceStrBool d "api_available"
  let d := coerceListField d "tech_stack"
  let d := coerceListField d "language_support"
  let d := coerceListField d "integration_capabilities"
  let d := fillMissingField d "pricing_model" (JsonValue.str "Unknown")
  let d := fillMissingField d "description"
      (JsonValue.str "No description available")
  d

/-- The typed record produced by the Recovery Engine (the spec's
    ToolAnalysis).  `pricing_model` is kept as a plain string so that the
    enum-membership invariant is a provable property, not a typing artifact. -/
structure CompanyAnalysis where
  pricing_model : String
  is_open_source : Option Bool
  tech_stack : List String
  description : String
  api_available : Option Bool
  language_support : List String
  integration_capabilities : List String
deriving DecidableEq, Repr

/-- The five admissible pricing-model strings. -/
def pricingEnum : List String :=
  ["Free", "Freemium", "Paid", "Enterprise", "Unknown"]

/-- Membership of a string in the five-value pricing enum, as a boolean. -/
def pricingAllowed (s : String) : Bool :=
  s = "Free" || s = "Freemium" || s = "Paid" || s = "Enterprise"
    || s = "Unknown"

/-- Modelled from the spec: validation of the `pricing_model` field of the
    `CompanyAnalysis` pydantic model (src/models.py is not under src/).  The
    spec's data model makes pricingModel an enum over the five values with
    default "Unknown"; any other value is a validation error. -/
def validatePricing : Option JsonValue → Except Unit String
  | none => Except.ok "Unknown"
  | some (JsonValue.str s) =>
    if pricingAllowed s then Except.ok s else Except.error ()
  | some _ => Except.error ()

/-- Modelled from the spec: validation of an optional-bool field of the
    `CompanyAnalysis` pydantic model (src/models.py is not under src/):
    true/false/unset only, anything else is a validation error. -/
def validateOptBool : Option JsonValue → Except Unit (Option Bool)
  | none => Except.ok none
  | some JsonValue.null => Except.ok none
  | some (JsonValue.bool b) => Except.ok (some b)
  | some _ => Except.error ()

/-- Modelled from the spec: validation of a list-of-strings field of the
    `CompanyAnalysis` pydantic model (src/models.py is not under src/):
    missing becomes the empty list (the spec's default), a list must contain
    strings only, and a non-list is a validation error. -/
def validateStrList : Option JsonValue → Except Unit (List String)
  | none => Except.ok []
  | some (JsonValue.arr xs) =>
    xs.foldr
      (fun x acc =>
        match x, acc with
        | JsonValue.str s, Except.ok l => Except.ok (s :: l)
        | _, _ => Except.error ())
      (Except.ok [])
  | some _ => Except.error ()

/-- Modelled from the spec: validation of a required string field. -/
def validateStr : Option JsonValue → Except Unit String
  | some (JsonValue.str s) => Except.ok s
  | _ => Except.error ()

/-- Modelled from the spec: `CompanyAnalysis(**data)` — construction of the
    typed record from the normalised dict, raising (`Except.error`) on any
    field that violates the spec's data-model invariants (src/models.py is
    not under src/). -/
def mkCompanyAnalysis (d : JsonData) : Except Unit CompanyAnalysis :=
  match validatePricing (getField d "pricing_model"),
        validateOptBool (getField d "is_open_source"),
        validateStrList (getField d "tech_stack"),
        validateStr (getField d "description"),
        validateOptBool (getField d "api_available"),
        validateStrList (getField d "language_support"),
        validateStrList (getField d "integration_capabilities") with
  | Except.ok pm, Except.ok ios, Except.ok ts, Except.ok desc,
    Except.ok api, Except.ok ls, Except.ok ic =>
    Except.ok { pricing_model := pm, is_open_source := ios, tech_stack := ts,
                description := desc, api_available := api,
                language_support := ls, integration_capabilities := ic }
  | _, _, _, _, _, _, _ => Except.error ()

/-- Substring containment on `String` (Python `pat in s`). -/
def strContains (s pat : String) : Bool := containsSub s.toList pat.toList

/-- workflow.py lines 191-201: keyword-driven pricing detection of the
    fallback path — sequential if/elif over four ordered keyword groups,
    starting from "Unknown". -/
def fallbackPricing (content : String) : String :=
  if ["free", "$0", "no cost"].any
      (fun w => strContains content.toLower w) then "Free"
  else if ["freemium", "free tier", "free plan"].any
      (fun w => strContains content.toLower w) then "Freemium"
  else if ["enterprise", "contact sales"].any
      (fun w => strContains content.toLower w) then "Enterprise"
  else if ["$", "price", "paid", "subscription"].any
      (fun w => strContains content.toLower w) then "Paid"
  else "Unknown"

/-- Function `_create_fallback_analysis` (workflow.py lines 186-225): deterministic
    fallback synthesis.  The `llm_response` parameter is accepted and unused,
    as in the source.  The name-based seeding uses four independent `if`
    statements, so a later match overwrites an earlier one. -/
def create_fallback_analysis (company_name llm_response content : String) :
    CompanyAnalysis :=
  let description := company_name ++ " is a developer tool"
  let pricing_model := fallbackPricing content
  let name_lower := company_name.toLower
  let integration_capabilities :=
    if strContains name_lower "github" then ["GitHub", "VS Code"] else []
  let language_support :=
    if strContains name_lower "copilot" then
      ["Python", "JavaScript", "TypeScript"] else []
  let integration_capabilities :=
    if strContains name_lower "cursor" then ["VS Code"]
    else integration_capabilities
  let integration_capabilities :=
    if strContains name_lower "tabnine" then
      ["VS Code", "IntelliJ", "Sublime Text"] else integration_capabilities
  { pricing_model := pricing_model, is_open_source := none, tech_stack := [],
    description := description, api_available := none,
    language_support := language_support,
    integration_capabilities := integration_capabilities }

/-- Python `s.find(c)`: index of the first occurrence, if any. -/
def strFindIdx (s : String) (c : Char) : Option Nat :=
  s.toList.findIdx? (fun x => x = c)

/-- Python `s.rfind(c)`: index of the last occurrence, if any. -/
def strRFindIdx (s : String) (c : Char) : Option Nat :=
  (s.toList.reverse.findIdx? (fun x => x = c)).map
    (fun i => s.toList.length - 1 - i)

/-- Python `s[a:b]` (0 ≤ a, b; empty when a ≥ b). -/
def strSlice (s : String) (a b : Nat) : String :=
  String.mk ((s.toList.drop a).take (b - a))

/-- Python `str.strip()` on `String` (via the char-level `pyStrip`, which
    the kernel can evaluate). -/
def pyTrim (s : String) : String := String.mk (pyStrip s.toList)

/-- workflow.py line 92: `max_retries = 2`. -/
def max_retries : Nat := 2

/-- How one loop iteration of `_analyze_company_content` ends when the try
    body runs to one of its `return`/`continue` statements. -/
inductive BodyOut where
  | ret (a : CompanyAnalysis) : BodyOut
  | retFallback (js : String) : BodyOut
  | cont : BodyOut

/-- Wrap a validated record as a `return` exit, letting a validation error
    escape as an exception. -/
def retOfMk : Except Unit CompanyAnalysis → Except Unit BodyOut
  | Except.ok a => Except.ok (BodyOut.ret a)
  | Except.error e => Except.error e

/-- workflow.py lines 137-176: `json.loads` on the candidate slice followed
    by normalisation and `CompanyAnalysis(**data)`.  `parse_json` models
    `json.loads` (`none` = raises `JSONDecodeError`); a decoded non-dict
    value raises on the first `data.get` attribute access. -/
def parsePhase (parse_json : String → Option JsonValue) (js : String) :
    Except Unit BodyOut :=
  match parse_json js with
  | none => Except.error ()
  | some (JsonValue.obj d) => retOfMk (mkCompanyAnalysis (normalizeData d))
  | some _ => Except.error ()

/-- workflow.py lines 118-119: strip a leading triple-backtick json fence. -/
def stripOpenFence (json_str : String) : String :=
  if json_str.startsWith "```json" then json_str.drop 7 else json_str

/-- workflow.py lines 120-121: strip a trailing triple-backtick fence. -/
def stripCloseFence (j1 : String) : String :=
  if j1.endsWith "```" then j1.dropRight 3 else j1

/-- workflow.py lines 118-122: both fence strips followed by `strip()`. -/
def cleanResponse (json_str : String) : String :=
  pyTrim (stripCloseFence (stripOpenFence json_str))

/-- workflow.py lines 131-137: the exit taken when the cleaned text contains
    no usable brace pair: `continue` when attempts remain, else return the
    fallback analysis directly. -/
def noBraceExit (j3 : String) (attempt : Nat) : Except Unit BodyOut :=
  if attempt < max_retries - 1 then Except.ok BodyOut.cont
  else Except.ok (BodyOut.retFallback j3)

/-- workflow.py lines 125-137: if the cleaned text does not start with `{`,
    slice between the first `{` and the last `}` when both exist; with no
    braces, retry when attempts remain, else return the fallback directly. -/
def braceSlicePhase (parse_json : String → Option JsonValue) (j3 : String)
    (attempt : Nat) : Except Unit BodyOut :=
  if j3.startsWith "\x7b" then parsePhase parse_json j3
  else
    match strFindIdx j3 '{', strRFindIdx j3 '}' with
    | some i, some k => parsePhase parse_json (strSlice j3 i (k + 1))
    | _, _ => noBraceExit j3 attempt

/-- The try body of one iteration of `_analyze_company_content`
    (workflow.py lines 94-176): `Except.error` is an exception escaping the
    try body (llm raise, ValueError on final empty response, JSON decode
    error, model validation error); `BodyOut` are the explicit
    `return`/`continue` exits. -/
def analysisAttemptBody (parse_json : String → Option JsonValue)
    (resp : LLMResult) (attempt : Nat) : Except Unit BodyOut :=
  match resp with
  | LLMResult.raises => Except.error ()
  | LLMResult.returns raw =>
    if pyTrim raw = "" then
      if attempt < max_retries - 1 then Except.ok BodyOut.cont
      else Except.error ()
    else
      braceSlicePhase parse_json (cleanResponse (pyTrim raw)) attempt

/-- One full iteration of the retry loop, including the `except` handler
    (workflow.py lines 178-184): `some a` means the function returns `a`,
    `none` means `continue`. -/
def analysisAttempt (parse_json : String → Option JsonValue)
    (company_name content : String) (resp : LLMResult) (attempt : Nat) :
    Option CompanyAnalysis :=
  match analysisAttemptBody parse_json resp attempt with
  | Except.ok (BodyOut.ret a) => some a
  | Except.ok (BodyOut.retFallback js) =>
    some (create_fallback_analysis company_name js content)
  | Except.ok BodyOut.cont => none
  | Except.error _ =>
    if attempt < max_retries - 1 then none
    else some (create_fallback_analysis company_name "" content)

/-- Function `_analyze_company_content` (workflow.py lines 90-184): the two-iteration
    retry loop.  `resps n` is the response of the n-th llm invocation; the
    overall `none` models Python's implicit `return None` were the loop ever
    to exhaust without returning. -/
def analyze_company_content (parse_json : String → Option JsonValue)
    (company_name content : String) (resps : Nat → LLMResult) :
    Option CompanyAnalysis :=
  match analysisAttempt parse_json company_name content (resps 0) 0 with
  | some a => some a
  | none => analysisAttempt parse_json company_name content (resps 1) 1

/- ------------------------------------------------------------------ -/
/- Pipeline Orchestrator (`_extract_tools_step`, `_research_step`,
   `_analyze_step`, `run`; workflow.py lines 42-88 and 228-301).        -/

/-- One entry of a search response's `.data` list: a dict with `url`,
    optional `markdown` snippet and optional `metadata.title` (the source
    reads each with `.get` and a default). -/
structure SearchResultEntry where
  url : String
  markdown : String
  title : Option String

/-- Modelled from the spec: the per-tool CompanyRecord (`CompanyInfo` of
    src/models.py, which is not under src/): name, website, description,
    the ToolAnalysis fields, and the unused `competitors` placeholder. -/
structure CompanyInfo where
  name : String
  website : String
  description : String
  pricing_model : String
  is_open_source : Option Bool
  tech_stack : List String
  api_available : Option Bool
  language_support : List String
  integration_capabilities : List String
  competitors : List String
deriving DecidableEq, Repr

/-- Modelled from the spec: the accumulated pipeline state / final result
    (`ResearchState` of src/models.py, which is not under src/). -/
structure ResearchState where
  query : String
  extracted_tools : List String
  companies : List CompanyInfo
  analysis : String
deriving DecidableEq, Repr

/-- The two external collaborators (search/scrape provider and
    text-generation backend) plus the `json.loads` decoder and the pydantic
    serializer, each modelled as an arbitrary function so that every theorem
    quantifies over every collaborator behaviour. -/
structure Env where
  /-- Collaborator `firecrawl.search_companies query num_results`, reduced to its
      `.data` list (an error-shaped response without `.data` is the empty
      list, exactly how the source consumes it). -/
  search_companies : String → Nat → List SearchResultEntry
  /-- Collaborator `firecrawl.scrape_company_pages url`: `none` when the result is
      missing, has no markdown attribute, or a non-string body. -/
  scrape_company_pages : String → Option String
  /-- The extraction-stage llm invocation, as a function of the query and
      the assembled article content. -/
  llm_extract : String → String → LLMResult
  /-- The per-tool analysis llm invocation: tool name, scraped content,
      attempt index. -/
  llm_analyze : String → String → Nat → LLMResult
  /-- The final recommendation llm invocation: query, serialized records. -/
  llm_recommend : String → String → LLMResult
  /-- Decoder `json.loads` (`none` = raises). -/
  parse_json : String → Option JsonValue
  /-- pydantic `company.json()` serialization. -/
  company_json : CompanyInfo → String

/-- workflow.py lines 46-61: article search and page scraping; non-PDF pages
    with a non-empty markdown body contribute their first 1500 characters
    plus a blank-line separator. -/
def assembleArticleContent (env : Env) (query : String) : String :=
  let article_query := query ++ " tools comparison best alternatives"
  let results_data := env.search_companies article_query 3
  results_data.foldl
    (fun all_content result =>
      if result.url.endsWith ".pdf" then all_content
      else
        match env.scrape_company_pages result.url with
        | some md =>
          if md.trim ≠ "" then all_content ++ md.take 1500 ++ "\n\n"
          else all_content
        | none => all_content)
    ""

/-- Function `_extract_tools_step` (workflow.py lines 42-88): on an llm transport
    failure the `except` handler returns an empty candidate list; otherwise
    the response text goes through the Classifier's line filter. -/
def extract_tools_step (env : Env) (query : String) : List String :=
  match env.llm_extract query (assembleArticleContent env query) with
  | LLMResult.raises => []
  | LLMResult.returns s => extract_tool_names s

/-- workflow.py lines 239-250: the tool names the research stage iterates —
    the first 4 extracted candidates, or direct-search result titles
    (default "Unknown") when extraction produced none. -/
def researchToolNames (env : Env) (query : String)
    (extracted_tools : List String) : List String :=
  if extracted_tools.isEmpty then
    (env.search_companies query 4).map (fun r => r.title.getD "Unknown")
  else extracted_tools.take 4

/-- The per-tool search queries the research stage issues, in order
    (workflow.py lines 256-257: `tool_name + " official site"`). -/
def researchIssuedQueries (env : Env) (query : String)
    (extracted_tools : List String) : List String :=
  (researchToolNames env query extracted_tools).map
    (fun n => n ++ " official site")

/-- The per-tool body of `_research_step` (workflow.py lines 255-288): search for
    the official site, skip the tool when no result exists, otherwise build
    the CompanyRecord, scrape, run the Recovery Engine, and overwrite the
    analysis fields.  (The source reads `analysis.pricing_model` etc.
    directly; the `getD` arm is unreachable because the engine always
    returns a value.) -/
def researchOneTool (env : Env) (tool_name : String) : Option CompanyInfo :=
  match env.search_companies (tool_name ++ " official site") 1 with
  | [] => none
  | result :: _ =>
    let url := result.url
    let content :=
      match env.scrape_company_pages url with
      | some md => md
      | none => ""
    let analysis :=
      (analyze_company_content env.parse_json tool_name content
        (env.llm_analyze tool_name content)).getD
        (create_fallback_analysis tool_name "" content)
    some { name := tool_name, website := url,
           description := analysis.description,
           pricing_model := analysis.pricing_model,
           is_open_source := analysis.is_open_source,
           tech_stack := analysis.tech_stack,
           api_available := analysis.api_available,
           language_support := analysis.language_support,
           integration_capabilities := analysis.integration_capabilities,
           competitors := [] }

/-- Function `_research_step` (workflow.py lines 228-289). -/
def research_step (env : Env) (query : String)
    (extracted_tools : List String) : List CompanyInfo :=
  (researchToolNames env query extracted_tools).filterMap
    (researchOneTool env)

/-- Function `_analyze_step` (workflow.py lines 280-294): one recommendation llm call
    with no surrounding try/except — a transport failure propagates
    (`Except.error`). -/
def analyze_step (env : Env) (query : String)
    (companies : List CompanyInfo) : Except Unit String :=
  match env.llm_recommend query
      (String.intercalate ", " (companies.map env.company_json)) with
  | LLMResult.raises => Except.error ()
  | LLMResult.returns s => Except.ok s

/-- Function `run` (workflow.py lines 296-301): the three stages in sequence;
    only the final stage can fail the run. -/
def run_pipeline (env : Env) (query : String) : Except Unit ResearchState :=
  match analyze_step env query
      (research_step env query (extract_tools_step env query)) with
  | Except.error e => Except.error e
  | Except.ok analysis =>
    Except.ok { query := query,
                extracted_tools := extract_tools_step env query,
                companies := research_step env query
                  (extract_tools_step env query),
                analysis := analysis }

/- ------------------------------------------------------------------ -/
/- Spec-side definitions, for refinement comparison only.               -/

/-- The spec's wording of the numbered-list rule: the line "begins with a
    digit immediately followed by the character `.`".  This follows the
    spec's words, to be compared with `isNumberedListLine` from the code. -/
def numberedMarkerSpecRule (line : List Char) : Bool :=
  match line with
  | c :: d :: _ => c.isDigit && decide (d = '.')
  | _ => false

/-- The spec's wording of the fallback pricing scan: case-insensitive
    substring scan of the content against four ordered keyword groups,
    first match wins, else Unknown.  This follows the spec's words, to be
    compared with `fallbackPricing` from the code. -/
def pricingScanSpec (content : String) : String :=
  if ["free", "$0", "no cost"].any
      (fun w => strContains content.toLower w) then "Free"
  else if ["freemium", "free tier", "free plan"].any
      (fun w => strContains content.toLower w) then "Freemium"
  else if ["enterprise", "contact sales"].any
      (fun w => strContains content.toLower w) then "Enterprise"
  else if ["$", "price", "paid", "subscription"].any
      (fun w => strContains content.toLower w) then "Paid"
  else "Unknown"

/-- A concrete environment whose collaborators all fail (no search data, no
    scraped pages, every llm call raises, json parsing always fails), used
    to instantiate universally quantified statements. -/
def failingEnv : Env where
  search_companies := fun _ _ => []
  scrape_company_pages := fun _ => none
  llm_extract := fun _ _ => LLMResult.raises
  llm_analyze := fun _ _ _ => LLMResult.raises
  llm_recommend := fun _ _ => LLMResult.raises
  parse_json := fun _ => none
  company_json := fun _ => ""

/- ------------------------------------------------------------------ -/
/- Theorems.                                                            -/

/-- C4: applied to the five given input lines, the Classifier's line filter
    outputs exactly `["PlanetScale"]` — the other four lines fail the
    preamble, numbered-list, stop-word, and word-count rules respectively. -/
theorem c4_classifier_example :
    extract_tool_lines
      ["Here are the tools:", "1. Supabase", "PlanetScale",
       "This summary mentions many tools",
       "Railway CLI deploy assistant extra words here too"]
      = ["PlanetScale"] := by decide

/-- C3, counterexample: the line `"1 v2.0"` starts with a digit but its `.`
    occurs only later, so by the claim it is not discarded by the
    numbered-list rule; no other rule applies to it (it is non-empty,
    trimmed, not a preamble, has no stop word, and has 2 words), yet the
    code discards it — line 76 of workflow.py tests `"." in line`, i.e. a
    dot anywhere, not a dot immediately after the leading digit. -/
theorem c3_counterexample :
    process_line "1 v2.0" = none
    ∧ numberedMarkerSpecRule ("1 v2.0".toList) = false
    ∧ pyStrip ("1 v2.0".toList) = "1 v2.0".toList
    ∧ ("1 v2.0".toList).isEmpty = false
    ∧ isPreambleLine ("1 v2.0".toList) = false
    ∧ hasSummaryKeyword ("1 v2.0".toList) = false
    ∧ tooManyWords ("1 v2.0".toList) = false := by decide

/-- C3, amended: the numbered-list rule discards a line exactly when its
    first character is a digit AND the line contains "." anywhere (not
    necessarily immediately after the digit).  For a trimmed, non-empty,
    non-preamble line: the rule equals that condition, the rule firing
    discards the line, and when the rule does not fire the line is
    discarded only by the stop-word or word-count rules. -/
theorem c3_numbered_rule_amended (l : List Char)
    (htrim : pyStrip l = l) (hne : l.isEmpty = false)
    (hpre : isPreambleLine l = false) :
    (isNumberedListLine l
      = (l.head?.any Char.isDigit && containsSub l ['.']))
    ∧ (isNumberedListLine l = true → processLineChars l = none)
    ∧ (isNumberedListLine l = false →
        (processLineChars l = none
          ↔ (hasSummaryKeyword l = true ∨ tooManyWords l = true))) := by
  refine ⟨?_, ?_, ?_⟩
  · cases l with
    | nil => rfl
    | cons c rest => rfl
  · intro hn
    unfold processLineChars
    rw [htrim]
    simp [hne, hpre, hn]
  · intro hn
    unfold processLineChars
    rw [htrim]
    by_cases hs : hasSummaryKeyword l = true
    · simp [hne, hpre, hn, hs]
    · by_cases hw : tooManyWords l = true
      · simp [hne, hpre, hn, hs, hw]
      · simp [hne, hpre, hn, hs, hw]

theorem c3_amended_witness :
    isNumberedListLine ("1 v2.0".toList) = true
    ∧ processLineChars ("1 v2.0".toList) = none :=
  ⟨by decide,
   (c3_numbered_rule_amended ("1 v2.0".toList) (by decide) (by decide)
      (by decide)).2.1 (by decide)⟩

/-- Dropping a prefix with `dropWhile` never lengthens a list. -/
theorem dropWhile_length_le (p : Char → Bool) (l : List Char) :
    (l.dropWhile p).length ≤ l.length := by
  induction l with
  | nil => simp
  | cons a t ih =>
    rw [List.dropWhile_cons]
    by_cases hp : p a = true
    · rw [if_pos hp]
      exact Nat.le_succ_of_le ih
    · rw [if_neg hp]

/-- A prefix of a list with no leading run of `p` also has no leading run. -/
theorem dropWhile_of_prefix_of_clean {p : Char → Bool} {l y : List Char}
    (hl : l.dropWhile p = l) (hy : y <+: l) : y.dropWhile p = y := by
  cases y with
  | nil => rfl
  | cons a ys =>
    obtain ⟨r, hr⟩ := hy
    by_cases hpa : p a = true
    · exfalso
      rw [← hr] at hl
      simp only [List.cons_append, List.dropWhile_cons, if_pos hpa] at hl
      have hlen := dropWhile_length_le p (ys ++ r)
      rw [hl] at hlen
      simp at hlen
    · rw [List.dropWhile_cons, if_neg hpa]

/-- Python `strip` is idempotent. -/
theorem pyStrip_idem (s : List Char) : pyStrip (pyStrip s) = pyStrip s := by
  unfold pyStrip
  rw [dropWhile_of_prefix_of_clean (List.dropWhile_idempotent _ _)
      (List.rdropWhile_prefix _ _), List.rdropWhile_idempotent]

/-- A line kept by the filter is kept unchanged when filtered again. -/
theorem processLineChars_fixpoint {l x : List Char}
    (h : processLineChars l = some x) : processLineChars x = some x := by
  unfold processLineChars at h
  split_ifs at h with h1 h2 h3 h4 h5
  have hx : pyStrip l = x := Option.some.inj h
  have hfix : pyStrip x = x := by rw [← hx]; exact pyStrip_idem l
  rw [hx] at h1 h2 h3 h4 h5
  unfold processLineChars
  rw [hfix, if_neg h1, if_neg h2, if_neg h3, if_neg h4, if_neg h5]

/-- The filter `process_line` keeps its own outputs unchanged. -/
theorem process_line_fixpoint {s y : String} (h : process_line s = some y) :
    process_line y = some y := by
  unfold process_line at h ⊢
  cases hc : processLineChars s.toList with
  | none => rw [hc] at h; simp at h
  | some c =>
    rw [hc] at h
    simp only [Option.map_some'] at h
    have hy : String.mk c = y := Option.some.inj h
    have hcl : y.toList = c := by rw [← hy]; rfl
    rw [hcl, processLineChars_fixpoint hc]
    simp [hy]

/-- C5: the Classifier's line filter is idempotent — re-running the filter
    on its own output removes nothing further. -/
theorem c5_filter_idempotent (lines : List String) :
    extract_tool_lines (extract_tool_lines lines)
      = extract_tool_lines lines := by
  unfold extract_tool_lines
  rw [List.filterMap_filterMap]
  congr 1
  funext s
  cases hx : process_line s with
  | none => simp
  | some y => simp [process_line_fixpoint hx]

/-- Substring containment is downward closed along infixes. -/
theorem strContains_of_infix {s a b : String}
    (hab : a.toList <:+: b.toList) (h : strContains s b = true) :
    strContains s a = true := by
  unfold strContains containsSub at h ⊢
  exact decide_eq_true (List.IsInfix.trans hab (of_decide_eq_true h))

/-- C10: the fallback synthesis never returns pricing model "Freemium":
    every keyword of the Freemium group contains the substring "free",
    which the earlier Free group already matches, so the Freemium branch of
    the first-match-wins scan is unreachable. -/
theorem c10_fallback_never_freemium
    (company_name llm_response content : String) :
    (create_fallback_analysis company_name llm_response content).pricing_model
      ≠ "Freemium" := by
  show fallbackPricing content ≠ "Freemium"
  unfold fallbackPricing
  split_ifs with h1 h2 h3 h4
  · decide
  · exfalso
    simp only [List.any_eq_true] at h1 h2
    obtain ⟨w, hw, hcont⟩ := h2
    apply h1
    refine ⟨"free", by simp, ?_⟩
    simp only [List.mem_cons, List.mem_singleton, List.not_mem_nil,
      or_false] at hw
    rcases hw with h | h | h
    · exact strContains_of_infix (by decide) (h ▸ hcont)
    · exact strContains_of_infix (by decide) (h ▸ hcont)
    · exact strContains_of_infix (by decide) (h ▸ hcont)
  · decide
  · decide
  · decide

/-- A successful `validatePricing` only ever yields one of the five enum
    strings. -/
theorem validatePricing_mem {o : Option JsonValue} {s : String}
    (h : validatePricing o = Except.ok s) : s ∈ pricingEnum := by
  cases o with
  | none =>
    rw [← Except.ok.inj h]
    decide
  | some v =>
    cases v with
    | str t =>
      have h' : (if pricingAllowed t = true then Except.ok t
          else Except.error (() : Unit)) = Except.ok s := h
      by_cases hc : pricingAllowed t = true
      · rw [if_pos hc] at h'
        rw [← Except.ok.inj h']
        unfold pricingAllowed at hc
        simp only [Bool.or_eq_true, decide_eq_true_eq] at hc
        simp only [pricingEnum, List.mem_cons, List.not_mem_nil, or_false]
        tauto
      · rw [if_neg hc] at h'
        exact Except.noConfusion h'
    | null => exact Except.noConfusion h
    | bool b => exact Except.noConfusion h
    | num n => exact Except.noConfusion h
    | arr xs => exact Except.noConfusion h
    | obj d => exact Except.noConfusion h

/-- Every record that model validation accepts has an enum pricing model. -/
theorem mk_ok_pricing {d : JsonData} {a : CompanyAnalysis}
    (h : mkCompanyAnalysis d = Except.ok a) :
    a.pricing_model ∈ pricingEnum := by
  unfold mkCompanyAnalysis at h
  cases h1 : validatePricing (getField d "pricing_model") with
  | error e => rw [h1] at h; exact Except.noConfusion h
  | ok pm =>
    rw [h1] at h
    cases h2 : validateOptBool (getField d "is_open_source") with
    | error e => rw [h2] at h; exact Except.noConfusion h
    | ok ios =>
      rw [h2] at h
      cases h3 : validateStrList (getField d "tech_stack") with
      | error e => rw [h3] at h; exact Except.noConfusion h
      | ok ts =>
        rw [h3] at h
        cases h4 : validateStr (getField d "description") with
        | error e => rw [h4] at h; exact Except.noConfusion h
        | ok desc =>
          rw [h4] at h
          cases h5 : validateOptBool (getField d "api_available") with
          | error e => rw [h5] at h; exact Except.noConfusion h
          | ok api =>
            rw [h5] at h
            cases h6 : validateStrList (getField d "language_support") with
            | error e => rw [h6] at h; exact Except.noConfusion h
            | ok ls =>
              rw [h6] at h
              cases h7 : validateStrList
                  (getField d "integration_capabilities") with
              | error e => rw [h7] at h; exact Except.noConfusion h
              | ok ic =>
                rw [h7] at h
                rw [← Except.ok.inj h]
                exact validatePricing_mem h1

/-- The fallback synthesis always yields an enum pricing model. -/
theorem fallback_pricing_mem (n r c : String) :
    (create_fallback_analysis n r c).pricing_model ∈ pricingEnum := by
  show fallbackPricing c ∈ pricingEnum
  unfold fallbackPricing
  split_ifs <;> decide

/-- Wrapper `retOfMk` returns a record only when validation accepted it. -/
theorem retOfMk_ret {x : Except Unit CompanyAnalysis} {a : CompanyAnalysis}
    (h : retOfMk x = Except.ok (BodyOut.ret a)) : x = Except.ok a := by
  cases x with
  | ok a0 =>
    have h' : BodyOut.ret a0 = BodyOut.ret a := Except.ok.inj h
    have : a0 = a := by injection h'
    rw [this]
  | error e => exact Except.noConfusion h

/-- A record returned by the parse phase went through model validation. -/
theorem parsePhase_ret_pricing {parse_json : String → Option JsonValue}
    {js : String} {a : CompanyAnalysis}
    (h : parsePhase parse_json js = Except.ok (BodyOut.ret a)) :
    a.pricing_model ∈ pricingEnum := by
  unfold parsePhase at h
  cases hpj : parse_json js with
  | none => rw [hpj] at h; exact Except.noConfusion h
  | some v =>
    rw [hpj] at h
    cases v with
    | obj d =>
      have h' : retOfMk (mkCompanyAnalysis (normalizeData d))
          = Except.ok (BodyOut.ret a) := h
      exact mk_ok_pricing (retOfMk_ret h')
    | null => exact Except.noConfusion h
    | bool b => exact Except.noConfusion h
    | num n => exact Except.noConfusion h
    | str s => exact Except.noConfusion h
    | arr xs => exact Except.noConfusion h

/-- The no-brace exit never returns a parsed record. -/
theorem noBraceExit_ne_ret (j3 : String) (attempt : Nat)
    (a : CompanyAnalysis) :
    noBraceExit j3 attempt ≠ Except.ok (BodyOut.ret a) := by
  intro h
  unfold noBraceExit at h
  split_ifs at h
  · exact BodyOut.noConfusion (Except.ok.inj h)
  · exact BodyOut.noConfusion (Except.ok.inj h)

/-- The brace-slice phase only returns records produced by the parse phase. -/
theorem braceSlicePhase_ret_pricing {parse_json : String → Option JsonValue}
    {j3 : String} {attempt : Nat} {a : CompanyAnalysis}
    (h : braceSlicePhase parse_json j3 attempt = Except.ok (BodyOut.ret a)) :
    a.pricing_model ∈ pricingEnum := by
  unfold braceSlicePhase at h
  split_ifs at h with h1
  · exact parsePhase_ret_pricing h
  · rcases hf : strFindIdx j3 '{' with _ | i <;>
      rcases hr : strRFindIdx j3 '}' with _ | k <;>
      rw [hf, hr] at h
    · exact absurd h (noBraceExit_ne_ret j3 attempt a)
    · exact absurd h (noBraceExit_ne_ret j3 attempt a)
    · exact absurd h (noBraceExit_ne_ret j3 attempt a)
    · exact parsePhase_ret_pricing h

/-- A record returned by the try body has an enum pricing model. -/
theorem body_ret_pricing {parse_json : String → Option JsonValue}
    {resp : LLMResult} {attempt : Nat} {a : CompanyAnalysis}
    (h : analysisAttemptBody parse_json resp attempt
        = Except.ok (BodyOut.ret a)) :
    a.pricing_model ∈ pricingEnum := by
  cases resp with
  | raises => simp [analysisAttemptBody] at h
  | returns raw =>
    simp only [analysisAttemptBody] at h
    by_cases h1 : pyTrim raw = ""
    · rw [if_pos h1] at h
      by_cases h2 : attempt < max_retries - 1
      · rw [if_pos h2] at h
        exact BodyOut.noConfusion (Except.ok.inj h)
      · rw [if_neg h2] at h
        exact Except.noConfusion h
    · rw [if_neg h1] at h
      exact braceSlicePhase_ret_pricing h

/-- Any record returned by one loop iteration has an enum pricing model. -/
theorem attempt_some_pricing {parse_json : String → Option JsonValue}
    {company_name content : String} {resp : LLMResult} {attempt : Nat}
    {a : CompanyAnalysis}
    (h : analysisAttempt parse_json company_name content resp attempt
        = some a) :
    a.pricing_model ∈ pricingEnum := by
  unfold analysisAttempt at h
  cases hb : analysisAttemptBody parse_json resp attempt with
  | ok b =>
    rw [hb] at h
    cases b with
    | ret a0 =>
      have h' : some a0 = some a := h
      rw [← Option.some.inj h']
      exact body_ret_pricing hb
    | retFallback js =>
      have h' : some (create_fallback_analysis company_name js content)
          = some a := h
      rw [← Option.some.inj h']
      exact fallback_pricing_mem company_name js content
    | cont =>
      have h' : (none : Option CompanyAnalysis) = some a := h
      exact Option.noConfusion h'
  | error e =>
    rw [hb] at h
    have h' : (if attempt < max_retries - 1 then
        (none : Option CompanyAnalysis)
        else some (create_fallback_analysis company_name "" content))
        = some a := h
    by_cases hlt : attempt < max_retries - 1
    · rw [if_pos hlt] at h'
      exact Option.noConfusion h'
    · rw [if_neg hlt] at h'
      rw [← Option.some.inj h']
      exact fallback_pricing_mem company_name "" content

/-- C2: every ToolAnalysis value the Recovery Engine produces (faithful
    parse or fallback synthesis) has a pricing model among the five enum
    values, and its optional booleans are true, false or unset.  (The list
    fields are `List String` by construction of `CompanyAnalysis`, via the
    list coercions of lines 154-158 and the spec-modelled validation.) -/
theorem c2_analysis_well_typed (parse_json : String → Option JsonValue)
    (company_name content : String) (resps : Nat → LLMResult)
    (a : CompanyAnalysis)
    (h : analyze_company_content parse_json company_name content resps
        = some a) :
    a.pricing_model ∈ pricingEnum
    ∧ (a.is_open_source = none ∨ ∃ b, a.is_open_source = some b)
    ∧ (a.api_available = none ∨ ∃ b, a.api_available = some b) := by
  refine ⟨?_, ?_, ?_⟩
  · unfold analyze_company_content at h
    cases h0 : analysisAttempt parse_json company_name content (resps 0) 0 with
    | some a0 =>
      rw [h0] at h
      rw [← Option.some.inj h]
      exact attempt_some_pricing h0
    | none =>
      rw [h0] at h
      exact attempt_some_pricing h
  · cases a.is_open_source with
    | none => exact Or.inl rfl
    | some b => exact Or.inr ⟨b, rfl⟩
  · cases a.api_available with
    | none => exact Or.inl rfl
    | some b => exact Or.inr ⟨b, rfl⟩

theorem c2_witness :
    (create_fallback_analysis "X" "" "").pricing_model ∈ pricingEnum :=
  (c2_analysis_well_typed (fun _ => none) "X" "" (fun _ => LLMResult.raises)
    (create_fallback_analysis "X" "" "") rfl).1

/-- The parse phase never issues a `continue`. -/
theorem parsePhase_ne_cont (parse_json : String → Option JsonValue)
    (js : String) : parsePhase parse_json js ≠ Except.ok BodyOut.cont := by
  intro h
  unfold parsePhase at h
  cases hpj : parse_json js with
  | none => rw [hpj] at h; exact Except.noConfusion h
  | some v =>
    rw [hpj] at h
    cases v with
    | obj d =>
      have h' : retOfMk (mkCompanyAnalysis (normalizeData d))
          = Except.ok BodyOut.cont := h
      cases hmk : mkCompanyAnalysis (normalizeData d) with
      | ok a0 =>
        rw [hmk] at h'
        exact BodyOut.noConfusion (Except.ok.inj h')
      | error e => rw [hmk] at h'; exact Except.noConfusion h'
    | null => exact Except.noConfusion h
    | bool b => exact Except.noConfusion h
    | num n => exact Except.noConfusion h
    | str s => exact Except.noConfusion h
    | arr xs => exact Except.noConfusion h

/-- On the final attempt the no-brace exit returns the fallback, never a
    `continue`. -/
theorem noBraceExit_last_ne_cont (j3 : String) :
    noBraceExit j3 1 ≠ Except.ok BodyOut.cont := by
  intro h
  unfold noBraceExit at h
  rw [if_neg (by simp [max_retries])] at h
  exact BodyOut.noConfusion (Except.ok.inj h)

/-- On the final attempt the brace-slice phase never issues a `continue`. -/
theorem braceSlicePhase_last_ne_cont (parse_json : String → Option JsonValue)
    (j3 : String) :
    braceSlicePhase parse_json j3 1 ≠ Except.ok BodyOut.cont := by
  intro h
  unfold braceSlicePhase at h
  by_cases h1 : j3.startsWith "\x7b" = true
  · rw [if_pos h1] at h
    exact parsePhase_ne_cont parse_json j3 h
  · rw [if_neg h1] at h
    rcases hf : strFindIdx j3 '{' with _ | i <;>
      rcases hr : strRFindIdx j3 '}' with _ | k <;>
      rw [hf, hr] at h
    · exact noBraceExit_last_ne_cont j3 h
    · exact noBraceExit_last_ne_cont j3 h
    · exact noBraceExit_last_ne_cont j3 h
    · exact parsePhase_ne_cont parse_json (strSlice j3 i (k + 1)) h

/-- On the final attempt the try body never issues a `continue`. -/
theorem body_last_ne_cont (parse_json : String → Option JsonValue)
    (resp : LLMResult) :
    analysisAttemptBody parse_json resp 1 ≠ Except.ok BodyOut.cont := by
  intro h
  cases resp with
  | raises => simp [analysisAttemptBody] at h
  | returns raw =>
    simp only [analysisAttemptBody] at h
    by_cases h1 : pyTrim raw = ""
    · rw [if_pos h1, if_neg (by simp [max_retries])] at h
      exact Except.noConfusion h
    · rw [if_neg h1] at h
      exact braceSlicePhase_last_ne_cont parse_json
        (cleanResponse (pyTrim raw)) h

/-- The second (final) loop iteration always returns a value. -/
theorem analysisAttempt_last_isSome (parse_json : String → Option JsonValue)
    (company_name content : String) (resp : LLMResult) :
    (analysisAttempt parse_json company_name content resp 1).isSome
      = true := by
  unfold analysisAttempt
  cases hb : analysisAttemptBody parse_json resp 1 with
  | ok b =>
    cases b with
    | ret a => simp
    | retFallback js => simp
    | cont => exact absurd hb (body_last_ne_cont parse_json resp)
  | error e =>
    rw [if_neg (by simp [max_retries])]
    simp

/-- Function `_analyze_company_content` always returns a ToolAnalysis value. -/
theorem analyze_company_content_isSome
    (parse_json : String → Option JsonValue) (company_name content : String)
    (resps : Nat → LLMResult) :
    (analyze_company_content parse_json company_name content resps).isSome
      = true := by
  unfold analyze_company_content
  cases h0 : analysisAttempt parse_json company_name content (resps 0) 0 with
  | some a => simp
  | none =>
    exact analysisAttempt_last_isSome parse_json company_name content
      (resps 1)

/-- C1: for every tool name, content snippet, `json.loads` behaviour and
    text-generation behaviour (raising, empty, malformed or fenced text),
    `_analyze_company_content` returns a ToolAnalysis value and never
    raises — every exception inside the try body is absorbed by the
    `except` handler, and the final attempt always returns. -/
theorem c1_analyze_never_fails (parse_json : String → Option JsonValue)
    (company_name content : String) (resps : Nat → LLMResult) :
    (analyze_company_content parse_json company_name content resps).isSome
      = true :=
  analyze_company_content_isSome parse_json company_name content resps

/-- C8: `_analyze_company_content` terminates, consults the llm responses
    of at most the first 2 invocations (its result is unchanged under any
    change of the responses from index 2 on), and always yields a value;
    the retry loop is bounded by `max_retries = 2` and the pipeline stages
    never re-invoke it on failure. -/
theorem c8_bounded_invocations (parse_json : String → Option JsonValue)
    (company_name content : String) (resps resps' : Nat → LLMResult)
    (h0 : resps 0 = resps' 0) (h1 : resps 1 = resps' 1) :
    analyze_company_content parse_json company_name content resps
      = analyze_company_content parse_json company_name content resps'
    ∧ (analyze_company_content parse_json company_name content resps).isSome
        = true := by
  constructor
  · unfold analyze_company_content
    rw [h0, h1]
  · exact analyze_company_content_isSome parse_json company_name content resps

theorem c8_witness :
    (analyze_company_content (fun _ => none) "X" ""
        (fun _ => LLMResult.raises)).isSome = true :=
  (c8_bounded_invocations (fun _ => none) "X" "" (fun _ => LLMResult.raises)
    (fun _ => LLMResult.raises) rfl rfl).2

/-- C7: when both model attempts yield an empty response, the Recovery
    Engine returns the deterministic fallback: description
    `"X is a developer tool"` for tool name `X`, and a pricing model
    obtained solely by the spec's case-insensitive first-match-wins keyword
    scan of the content, without raising. -/
theorem c7_empty_responses_fallback (parse_json : String → Option JsonValue)
    (company_name content : String) (resps : Nat → LLMResult)
    (s0 s1 : String)
    (h0 : resps 0 = LLMResult.returns s0) (h0e : pyTrim s0 = "")
    (h1 : resps 1 = LLMResult.returns s1) (h1e : pyTrim s1 = "") :
    analyze_company_content parse_json company_name content resps
      = some (create_fallback_analysis company_name "" content)
    ∧ (create_fallback_analysis company_name "" content).description
        = company_name ++ " is a developer tool"
    ∧ (create_fallback_analysis company_name "" content).pricing_model
        = pricingScanSpec content := by
  refine ⟨?_, rfl, rfl⟩
  unfold analyze_company_content analysisAttempt
  rw [h0, h1]
  simp only [analysisAttemptBody]
  rw [if_pos h0e, if_pos h1e,
    if_pos (by simp [max_retries] : 0 < max_retries - 1),
    if_neg (by simp [max_retries] : ¬(1 < max_retries - 1))]
  rfl

theorem c7_witness :
    analyze_company_content (fun _ => none) "X" "free to use"
        (fun _ => LLMResult.returns "")
      = some (create_fallback_analysis "X" "" "free to use") :=
  (c7_empty_responses_fallback (fun _ => none) "X" "free to use"
    (fun _ => LLMResult.returns "") "" "" rfl (by decide) rfl (by decide)).1

/-- C6: whenever at least 5 candidates were extracted, the research stage
    iterates exactly the first 4 of them, in their order of discovery, and
    issues exactly the per-tool searches `"<name> official site"` for those
    4; the 5th and later candidates are never queried. -/
theorem c6_research_first_four (env : Env) (query : String)
    (extracted_tools : List String) (h : 5 ≤ extracted_tools.length) :
    researchToolNames env query extracted_tools = extracted_tools.take 4
    ∧ (researchToolNames env query extracted_tools).length = 4
    ∧ researchIssuedQueries env query extracted_tools
        = (extracted_tools.take 4).map (fun n => n ++ " official site") := by
  have hne : extracted_tools.isEmpty = false := by
    cases extracted_tools with
    | nil => simp at h
    | cons a t => rfl
  refine ⟨?_, ?_, ?_⟩
  · simp [researchToolNames, hne]
  · simp only [researchToolNames, hne, Bool.false_eq_true, if_false,
      List.length_take]
    omega
  · simp [researchIssuedQueries, researchToolNames, hne]

theorem c6_witness :
    researchToolNames failingEnv "q" ["a", "b", "c", "d", "e"]
      = ["a", "b", "c", "d"] := by
  have h := c6_research_first_four failingEnv "q" ["a", "b", "c", "d", "e"]
    (by decide)
  exact h.1.trans (by decide)

/-- C9: a raising text-generation call in the extraction stage degrades to
    an empty candidate list and the pipeline proceeds through the remaining
    stages (the run still completes whenever the final call returns); a
    raising text-generation call in the final analyze stage propagates to
    the caller of `run`, with no fallback recommendation produced. -/
theorem c9_transport_failure_policy (env : Env) (query : String) :
    ((∀ q c, env.llm_extract q c = LLMResult.raises) →
      extract_tools_step env query = []
      ∧ run_pipeline env query
          = (analyze_step env query (research_step env query [])).map
              (fun s =>
                { query := query, extracted_tools := [],
                  companies := research_step env query [],
                  analysis := s }))
    ∧ ((∀ q d, env.llm_recommend q d = LLMResult.raises) →
        run_pipeline env query = Except.error ()) := by
  constructor
  · intro hx
    have hext : extract_tools_step env query = [] := by
      unfold extract_tools_step
      rw [hx query (assembleArticleContent env query)]
    refine ⟨hext, ?_⟩
    unfold run_pipeline
    rw [hext]
    cases ha : analyze_step env query (research_step env query []) with
    | ok s => rfl
    | error e => rfl
  · intro hr
    unfold run_pipeline analyze_step
    rw [hr]

theorem c9_witness :
    run_pipeline failingEnv "q" = Except.error ()
    ∧ extract_tools_step failingEnv "q" = [] :=
  ⟨(c9_transport_failure_policy failingEnv "q").2 (fun _ _ => rfl),
   ((c9_transport_failure_policy failingEnv "q").1 (fun _ _ => rfl)).1⟩
